import Mathlib

/-!
Verification of the tile-game core (`qq3.py`).

Shallow embedding, in Lean 4, of the level parser, the auto-tiling
renderer's tile selection, and the resource/interaction state machine of
the pygame demo `src/qq3.py`, together with theorems settling the frozen
claims about its specification.

Machine conventions: Python integers are `Int` (no overflow in the
program's ranges), Python list/string indexing (including negative-index
wrap-around and `IndexError`) is `pyGet`, Python dictionaries keyed by
characters/strings are association lists, and code paths that raise an
uncaught exception (`NameError` on the unbound local `bonus`, `KeyError`
on a missing symbol section) are `Option`/`Except` failures.
-/

namespace QQ3

/-- Python sequence indexing `l[i]` made total: a negative index wraps
from the end (`l[-1]` is the last element), an index out of range on
either side yields `none` (models `IndexError`). -/
def pyGet {α : Type} (l : List α) (i : Int) : Option α :=
  if 0 ≤ i then l.get? i.toNat
  else if (-i).toNat ≤ l.length then l.get? (l.length - (-i).toNat)
  else none

/-- Attribute dictionary of one tile symbol: string key/value pairs, as
parsed by `configparser` (`dict(parser.items(section))`). -/
abbrev Attrs := List (String × String)

/-- The loaded level: `Level.__init__`/`load_file` state that the claims
need.  `map` is the list of rows (each row the list of its characters),
`key` maps each one-character section name to its attribute dictionary,
`items` records the sprite-carrying placements. -/
structure Level where
  tileset : String
  map : List (List Char)
  key : List (Char × Attrs)
  items : List ((Nat × Nat) × Attrs) := []
deriving Repr, DecidableEq

/-- `self.width = len(self.map[0])`. -/
def Level.width (lvl : Level) : Nat := (lvl.map.headD []).length

/-- `self.height = len(self.map)`. -/
def Level.height (lvl : Level) : Nat := lvl.map.length

/-- `self.key[char]` with the `KeyError` handler of `get_tile`: a symbol
with no section yields the empty dictionary. -/
def tileAttrs (lvl : Level) (c : Char) : Attrs :=
  (lvl.key.lookup c).getD []

/-- `Level.get_tile`: `self.map[y][x]` under a blanket `IndexError`
handler (so negative indices wrap, out-of-range gives `{}`), then the
symbol's attribute dictionary under a `KeyError` handler. -/
def get_tile (lvl : Level) (x y : Int) : Attrs :=
  match pyGet lvl.map y with
  | none => []
  | some row =>
    match pyGet row x with
    | none => []
    | some c => tileAttrs lvl c

/-- The truthy literals of `Level.get_bool`:
`value in (True, 1, 'true', 'yes', 'True', 'Yes', '1', 'on', 'On')`
restricted to the string values that `configparser` can produce. -/
def truthy (v : String) : Bool :=
  v = "true" || v = "yes" || v = "True" || v = "Yes" || v = "1" ||
    v = "on" || v = "On"

/-- `Level.get_bool`: flag lookup with a non-value defaulting to false. -/
def get_bool (lvl : Level) (x y : Int) (name : String) : Bool :=
  match (get_tile lvl x y).lookup name with
  | some v => truthy v
  | none => false

/-- `Level.is_wall`. -/
def is_wall (lvl : Level) (x y : Int) : Bool :=
  get_bool lvl x y "wall"

/-- The wall-face tile chosen by `Level.render` (lines 220-237) for a
wall cell at `(x, y)`: the south neighbour selects the tileset row, the
east/west (or, in the south-wall case, south-east/south-west)
neighbours select the column. -/
def wallFaceTile (lvl : Level) (x y : Int) : Nat × Nat :=
  if !(is_wall lvl x (y + 1)) then
    if is_wall lvl (x + 1) y && is_wall lvl (x - 1) y then (1, 2)
    else if is_wall lvl (x + 1) y then (0, 2)
    else if is_wall lvl (x - 1) y then (2, 2)
    else (3, 2)
  else
    if is_wall lvl (x + 1) (y + 1) && is_wall lvl (x - 1) (y + 1) then (1, 1)
    else if is_wall lvl (x + 1) (y + 1) then (0, 1)
    else if is_wall lvl (x - 1) (y + 1) then (2, 1)
    else (3, 1)

/-- The overlay tile chosen by `Level.render` (lines 239-248) when the
north neighbour of a wall cell is not a wall. -/
def wallOverTile (lvl : Level) (x y : Int) : Nat × Nat :=
  if is_wall lvl (x + 1) y && is_wall lvl (x - 1) y then (1, 0)
  else if is_wall lvl (x + 1) y then (0, 0)
  else if is_wall lvl (x - 1) y then (2, 0)
  else (3, 0)

/-- The selection table of the south-open ("wall-top boundary") case of
`Level.render`, as a function of the two booleans
(east-neighbour-is-wall, west-neighbour-is-wall). -/
def faceSelect (e w : Bool) : Nat × Nat :=
  if e && w then (1, 2)
  else if e then (0, 2)
  else if w then (2, 2)
  else (3, 2)

/-! ## The level parser (`Level.load_file`) -/

/-- Python's `str.split("\n")` on the character list: splitting on every
newline, with empty pieces kept (so the empty string yields `[[]]`). -/
def splitNLChars : List Char → List (List Char)
  | [] => [[]]
  | c :: cs =>
    if c = '\n' then [] :: splitNLChars cs
    else
      match splitNLChars cs with
      | r :: rs => (c :: r) :: rs
      | [] => [[c]]

/-- `value.split("\n")` as `load_file` applies it to the `map` value,
each row as its character list. -/
def splitLines (s : String) : List (List Char) :=
  splitNLChars s.toList

/-- A parsed configuration file as `configparser` hands it to
`load_file`: named sections, each a list of key/value options. -/
structure ConfigFile where
  sections : List (String × Attrs)
deriving Repr, DecidableEq

/-- `parser.get(sec, opt)` made total: `none` models the uncaught
`NoSectionError`/`NoOptionError`. -/
def cfgGet (cfg : ConfigFile) (sec opt : String) : Option String :=
  (cfg.sections.lookup sec).bind fun opts => opts.lookup opt

/-- The ways `load_file` dies: a missing `tileset` or `map` option
(`configparser` errors) or an unknown non-wall map symbol (the uncaught
`KeyError` raised by `self.key[c]` in the items loop). -/
inductive LoadErr
  | noTileset
  | noMap
  | keyError (c : Char)
deriving Repr, DecidableEq

/-- The sections of length-one name, as collected by the
`for section in parser.sections(): if len(section) == 1` loop. -/
def mkKey (cfg : ConfigFile) : List (Char × Attrs) :=
  cfg.sections.filterMap fun sec =>
    match sec.1.toList with
    | [c] => some (c, sec.2)
    | _ => none

/-- One row of the items loop of `load_file` (lines 204-207): walks the
row, skips wall cells, dies with `KeyError` on an unknown symbol, and
records the placement when the symbol carries a `sprite` attribute. -/
def scanRow (lvl : Level) (y : Nat) (row : List Char) :
    Except LoadErr (List ((Nat × Nat) × Attrs)) :=
  row.enum.foldlM
    (fun acc xc =>
      if is_wall lvl (xc.1 : Int) (y : Int) then .ok acc
      else
        match lvl.key.lookup xc.2 with
        | none => .error (.keyError xc.2)
        | some attrs =>
          .ok (if (attrs.lookup "sprite").isSome then
                 acc ++ [((xc.1, y), attrs)]
               else acc))
    []

/-- `Level.load_file`: read `tileset` and `map` (failing when either is
missing), split the map into rows, build the symbol table, and run the
items loop.  No validation of row lengths is performed anywhere. -/
def load_file (cfg : ConfigFile) : Except LoadErr Level := do
  let ts ← match cfgGet cfg "level" "tileset" with
           | some t => Except.ok t
           | none => Except.error LoadErr.noTileset
  let m ← match cfgGet cfg "level" "map" with
          | some m => Except.ok m
          | none => Except.error LoadErr.noMap
  let lvl : Level :=
    { tileset := ts
      map := splitLines m
      key := mkKey cfg }
  let its ← lvl.map.enum.foldlM
    (fun acc yrow => do
      let part ← scanRow lvl yrow.1 yrow.2
      pure (acc ++ part))
    []
  pure { lvl with items := its }

/-! ## The game state machine (`Game`) -/

/-- `FPS = 15`. -/
def FPS : Int := 15

/-- `self.maxcapacity = 500`. -/
def maxcapacity : Int := 500

/-- `self.weightnum = 250`. -/
def weightnum : Int := 250

/-- One entry of `self.bushstuff`: `[place, is_done, timeleft]`. -/
structure BushRec where
  place : List (Int × Int)
  is_done : Bool
  timeleft : Int
deriving Repr, DecidableEq

/-- One entry of `self.interact`: `[name, place]`. -/
structure Zone where
  name : String
  places : List (Int × Int)
deriving Repr, DecidableEq

/-- The mutable counters and bush states of `Game` that the claims are
about (`Game.__init__` lines 303-317); `potato` is the resource stock,
`needed` the donation goal. -/
structure GameState where
  potato : Int
  weight : Bool
  donation : Int
  needed : Int
  deadline : Int
  stoppedtime : Int
  is_time_stopped : Bool
  game_over : Bool
  bushstuff : List BushRec
deriving Repr, DecidableEq

/-- `self.features`. -/
def features : List String := ["bush", "forward", "backward", "stop", "crate"]

/-- The four orthogonal neighbours computed by `use_level.around`. -/
def aroundPlaces (pos : Int × Int) : List (Int × Int) :=
  [(pos.1 + 1, pos.2), (pos.1 - 1, pos.2), (pos.1, pos.2 + 1), (pos.1, pos.2 - 1)]

/-- The interact zones registered by `use_level` for a list of
`(feature-name, position)` item placements, in placement order. -/
def mkZones (items : List (String × Int × Int)) : List Zone :=
  (items.filter fun it => decide (it.1 ∈ features)).map fun it =>
    { name := it.1, places := aroundPlaces it.2 }

/-- The bush records allocated by `use_level.around` (`name == "bush"`
gets `[place, False, -1]`), in placement order. -/
def mkBushes (items : List (String × Int × Int)) : List BushRec :=
  (items.filter fun it => decide (it.1 ∈ features)).filterMap fun it =>
    if it.1 = "bush" then some { place := aroundPlaces it.2, is_done := false, timeleft := -1 }
    else none

/-- The counters as `Game.__init__` sets them (stock 499, goal 1000,
deadline `365 * FPS`, stop countdown `25 * FPS`), with the bush records
of the level's placements. -/
def initState (items : List (String × Int × Int)) : GameState :=
  { potato := 499
    weight := false
    donation := 0
    needed := 1000
    deadline := 365 * FPS
    stoppedtime := 25 * FPS
    is_time_stopped := false
    game_over := false
    bushstuff := mkBushes items }

/-! ## Interactions (`Game.control.interact`) -/

/-- The effect of `potato_affect` on one bush (lines 391-401): a growing
bush's timer shifts by `time * FPS`; if the shifted timer is `<= 0` the
code reads the local `bonus`, which is unbound at this point of
`interact` (a `NameError`), modelled as `none`; if it exceeds the
20-tick cap the bush is reset to idle. -/
def affectBush (time : Int) (b : BushRec) : Option BushRec :=
  if b.timeleft > 0 then
    let t := b.timeleft + time * FPS
    if t ≤ 0 then none
    else if t > 20 then some { b with is_done := false, timeleft := -1 }
    else some { b with timeleft := t }
  else some b

/-- `potato_affect(effect)`: `time = -5` on `effect is True` (the
`forward` zone), `time = 20` otherwise (`backward`). -/
def potato_affect (effect : Bool) (bs : List BushRec) : Option (List BushRec) :=
  bs.mapM (affectBush (if effect then -5 else 20))

/-- The `forward` branch body (lines 407-413): guarded on
`potato >= 40`, it rewinds the deadline by `5 * FPS`, pays 40 stock and
fast-forwards the bushes through `potato_affect(True)`. -/
def doForward (s : GameState) : Option GameState :=
  if s.potato ≥ 40 then
    (potato_affect true s.bushstuff).map fun bs =>
      { s with deadline := s.deadline - 5 * FPS
               potato := s.potato - 40
               bushstuff := bs }
  else some s

/-- The `backward` branch body (lines 422-428): guarded on
`potato >= 40`, it extends the deadline by `15 * FPS`, pays 40 stock and
delays the bushes through `potato_affect(False)`. -/
def doBackward (s : GameState) : Option GameState :=
  if s.potato ≥ 40 then
    (potato_affect false s.bushstuff).map fun bs =>
      { s with deadline := s.deadline + 15 * FPS
               potato := s.potato - 40
               bushstuff := bs }
  else some s

/-- The `stop` branch body (lines 415-420): guarded on `potato >= 250`,
it sets the time-stop flag and pays 250 stock. -/
def doStop (s : GameState) : GameState :=
  if s.potato ≥ 250 then
    { s with is_time_stopped := true, potato := s.potato - 250 }
  else s

/-- The bush lookup of the `bush` branch (lines 433-435): `bush` ends up
the `list.index` of the last record whose place contains `pos`; an
unmatched `pos` leaves `bush` unbound (`NameError`), modelled `none`. -/
def findBush (pos : Int × Int) (bs : List BushRec) : Option Nat :=
  match (bs.filter fun j => decide (pos ∈ j.place)).getLast? with
  | none => none
  | some j => some (bs.indexOf j)

/-- The `bush` branch body (lines 437-449), after its guard: plant an
idle bush (`timeleft := 20 * FPS`), harvest a grown one
(`potato += 50 + bonus`, reset to idle; `bonus = 50` iff time is
stopped), and leave a growing one unchanged. -/
def doBush (pos : Int × Int) (s : GameState) : Option GameState :=
  match findBush pos s.bushstuff with
  | none => none
  | some i =>
    match s.bushstuff.get? i with
    | none => none
    | some b =>
      if b.is_done = false ∧ b.timeleft < 0 then
        some { s with bushstuff := s.bushstuff.set i { b with timeleft := 20 * FPS } }
      else if b.is_done = true ∧ b.timeleft = 0 then
        some { s with
          potato := s.potato + 50 + (if s.is_time_stopped then 50 else 0)
          bushstuff := s.bushstuff.set i { b with is_done := false, timeleft := -1 } }
      else some s

/-- The `while maximum != 0` ladder of the `house` branch
(lines 452-459): the first value of 500, 250, 125, ... (integer
halving) that `potato` can afford, 0 if none. -/
def coefLoop (potato : Int) (maximum : Nat) : Int :=
  if h : maximum = 0 then 0
  else if potato ≥ (maximum : Int) then (maximum : Int)
  else coefLoop potato (maximum / 2)
termination_by maximum
decreasing_by exact Nat.div_lt_self (Nat.pos_of_ne_zero h) (by omega)

/-- The `house` branch body (lines 451-461), after its
`potato > 0` guard: transfer the ladder value from stock to donation. -/
def doHouse (s : GameState) : GameState :=
  let coef := coefLoop s.potato 500
  { s with potato := s.potato - coef, donation := s.donation + coef }

/-- The `forward` branch with its zone test (line 406). -/
def stepForward (pos : Int × Int) (z : Zone) (s : GameState) : Option GameState :=
  if pos ∈ z.places ∧ z.name = "forward" then doForward s else some s

/-- The `stop` branch with its zone test (line 414). -/
def stepStop (pos : Int × Int) (z : Zone) (s : GameState) : GameState :=
  if pos ∈ z.places ∧ z.name = "stop" ∧ s.is_time_stopped = false then doStop s
  else s

/-- The `backward` branch with its zone test (line 421). -/
def stepBackward (pos : Int × Int) (z : Zone) (s : GameState) : Option GameState :=
  if pos ∈ z.places ∧ z.name = "backward" then doBackward s else some s

/-- The `bush` branch with its zone test (line 429): note the capacity
guard `potato >= 0 and maxcapacity > potato`. -/
def stepBush (pos : Int × Int) (z : Zone) (s : GameState) : Option GameState :=
  if pos ∈ z.places ∧ 0 ≤ s.potato ∧ maxcapacity > s.potato ∧ z.name = "bush" then
    doBush pos s
  else some s

/-- The `house` branch with its zone test (line 451). -/
def stepHouse (pos : Int × Int) (z : Zone) (s : GameState) : GameState :=
  if pos ∈ z.places ∧ s.potato > 0 ∧ z.name = "house" then doHouse s else s

/-- One iteration of the `for i in self.interact` loop: the five branch
tests in source order, each reading the state the previous ones left. -/
def interactStep (pos : Int × Int) (z : Zone) (s : GameState) : Option GameState :=
  (stepForward pos z s).bind fun s1 =>
    (stepBackward pos z (stepStop pos z s1)).bind fun s2 =>
      (stepBush pos z s2).map fun s3 => stepHouse pos z s3

/-- `Game.control.interact`: fold the loop body over every registered
zone. -/
def interact (pos : Int × Int) (zones : List Zone) (s : GameState) :
    Option GameState :=
  zones.foldlM (fun s z => interactStep pos z s) s

/-! ## Per-tick updates (`Game.main`) -/

/-- `Game.main.timestop` (lines 524-533): a countdown at 0 clears the
flag and resets the countdown to `10 * FPS`; otherwise it just counts
down. -/
def timestop (s : GameState) : GameState :=
  if s.stoppedtime = 0 then
    { s with is_time_stopped := false, stoppedtime := 10 * FPS }
  else { s with stoppedtime := s.stoppedtime - 1 }

/-- `Game.main.potatogrow` (lines 548-553): each not-grown bush with a
positive timer counts down; a bush whose timer sits at 0 is marked
grown. -/
def potatogrow (bs : List BushRec) : List BushRec :=
  bs.map fun j =>
    let j := if j.is_done = false ∧ j.timeleft > 0 then { j with timeleft := j.timeleft - 1 } else j
    if j.timeleft = 0 ∧ j.is_done ≠ true then { j with is_done := true } else j

/-- The per-tick transitions of the main loop (lines 575-588): the
time-stop countdown, the deadline decrement (skipped while stopped or
at 0), the weight flag recomputation, and bush growth (skipped while
stopped). -/
def perTick (s : GameState) : GameState :=
  let s := if s.is_time_stopped = true then timestop s else s
  let s := if s.deadline ≠ 0 ∧ s.is_time_stopped = false then
             { s with deadline := s.deadline - 1 }
           else s
  let s := if s.potato ≥ weightnum then { s with weight := true }
           else { s with weight := false }
  if s.is_time_stopped = false then { s with bushstuff := potatogrow s.bushstuff }
  else s

/-- The pygame events the loop distinguishes (lines 610-616). -/
inductive Event
  | quit
  | keydown
  | other
deriving Repr, DecidableEq

/-- The body of the `for event in pygame.event.get()` loop
(lines 610-616): the loss test `deadline == 0 and needed != 0` runs
once per event, then `QUIT` forces game over. -/
def processEvent (s : GameState) (e : Event) : GameState :=
  let s := if s.deadline = 0 ∧ s.needed ≠ 0 then { s with game_over := true } else s
  if e = Event.quit then { s with game_over := true } else s

/-- One iteration of the main `while not self.game_over` loop: the
per-tick transitions, then (when the player pressed interact at `ipos`)
the interaction pass, then the pending events. -/
def loopIter (zones : List Zone) (s : GameState) (ipos : Option (Int × Int))
    (events : List Event) : Option GameState :=
  let s := perTick s
  match ipos with
  | some pos => (interact pos zones s).map fun s => events.foldl processEvent s
  | none => some (events.foldl processEvent s)

/-- The session states reachable from `Game.__init__` on a level whose
interactive placements are `items`, by any finite sequence of main-loop
iterations with any interactions and events. -/
inductive Reach (items : List (String × Int × Int)) : GameState → Prop
  | init : Reach items (initState items)
  | step (s s' : GameState) (ipos : Option (Int × Int)) (events : List Event) :
      Reach items s → loopIter (mkZones items) s ipos events = some s' →
      Reach items s'

/-! ## Concrete instances used by witnesses and counterexamples -/

/-- The level record `load_file` builds before its items loop, for a
configuration whose `tileset` and `map` options read `ts` and `m`. -/
def parsedLevel (cfg : ConfigFile) (ts m : String) : Level :=
  { tileset := ts
    map := splitLines m
    key := mkKey cfg }

/-- A two-by-two level whose top row is wall. -/
def demoLevel : Level :=
  { tileset := "tiles.png"
    map := [['#', '#'], ['.', '.']]
    key := [('#', [("wall", "true")]), ('.', [("tile", "0,3")])] }

/-- A configuration whose map rows have lengths 1, 2, 1. -/
def raggedCfg : ConfigFile :=
  { sections := [("level", [("tileset", "tiles.png"), ("map", ".\n..\n.")]),
                 (".", [("tile", "0,3")])] }

/-- What `load_file` makes of `raggedCfg`. -/
def raggedLevel : Level :=
  { tileset := "tiles.png"
    map := [['.'], ['.', '.'], ['.']]
    key := [('.', [("tile", "0,3")])]
    items := [] }

/-- A level with a single `forward` feature at `(5, 5)`. -/
def itemsF : List (String × Int × Int) := [("forward", 5, 5)]

/-- A level with a single `bush` feature at `(5, 5)`. -/
def itemsB : List (String × Int × Int) := [("bush", 5, 5)]

/-- A level with a single `crate` feature at `(5, 5)`. -/
def itemsC : List (String × Int × Int) := [("crate", 5, 5)]

/-- The session state on the `itemsF` level after one or more quiet
ticks: only the deadline has moved (and the weight flag has been
recomputed). -/
def sAfter (d : Int) : GameState :=
  { potato := 499, weight := true, donation := 0, needed := 1000,
    deadline := d, stoppedtime := 375, is_time_stopped := false,
    game_over := false, bushstuff := [] }

/-- The state a `forward` interaction yields from `sAfter 10` (the
iteration's own tick first moves the deadline to 9, the interaction
then subtracts 75). -/
def sNeg : GameState :=
  { potato := 459, weight := true, donation := 0, needed := 1000,
    deadline := -66, stoppedtime := 375, is_time_stopped := false,
    game_over := false, bushstuff := [] }

/-- A time-stopped state whose countdown sits at 0. -/
def sStopped0 : GameState :=
  { potato := 100, weight := false, donation := 0, needed := 1000,
    deadline := 5000, stoppedtime := 0, is_time_stopped := true,
    game_over := false, bushstuff := [] }

/-- A time-stopped state mid-countdown. -/
def sStopped1 : GameState :=
  { potato := 100, weight := false, donation := 0, needed := 1000,
    deadline := 5000, stoppedtime := 5, is_time_stopped := true,
    game_over := false, bushstuff := [] }

/-- A state with exactly the `forward` cost in stock and one freshly
planted bush (`timeleft = 20 * FPS = 300`). -/
def sFwdBush : GameState :=
  { potato := 40, weight := false, donation := 0, needed := 1000,
    deadline := 5000, stoppedtime := 375, is_time_stopped := false,
    game_over := false, bushstuff := [⟨aroundPlaces (2, 2), false, 300⟩] }

/-- The state of claim C2's end-to-end scenario:
`stock = 1000, donation = 0, goal = 1000`. -/
def sCrate : GameState :=
  { potato := 1000, weight := true, donation := 0, needed := 1000,
    deadline := 5000, stoppedtime := 375, is_time_stopped := false,
    game_over := false, bushstuff := [] }

/-- The `itemsB` state at exactly `maxcapacity` stock, its single bush
idle. -/
def sBush500 : GameState :=
  { potato := 500, weight := true, donation := 0, needed := 1000,
    deadline := 5000, stoppedtime := 375, is_time_stopped := false,
    game_over := false, bushstuff := mkBushes itemsB }

/-! ## Helper lemmas -/

theorem pyGet_natCast {α : Type} (l : List α) (n : Nat) :
    pyGet l (n : Int) = l.get? n := by
  simp [pyGet]

theorem get?_length_sub_one {α : Type} (l : List α) :
    l.get? (l.length - 1) = l.getLast? := by
  induction l with
  | nil => rfl
  | cons a t ih =>
    cases t with
    | nil => rfl
    | cons b t2 => simpa using ih

theorem pyGet_neg_one {α : Type} (l : List α) (h : l ≠ []) :
    pyGet l (-1) = l.getLast? := by
  have hl : 1 ≤ l.length := List.length_pos.mpr h
  simp only [pyGet]
  rw [if_neg (by omega), if_pos (by simpa using hl)]
  simpa using get?_length_sub_one l

theorem coefLoop_nonneg (p : Int) : ∀ m : Nat, 0 ≤ coefLoop p m := by
  intro m
  induction m using Nat.strong_induction_on with
  | _ m ih =>
    rw [coefLoop]
    split
    · exact le_refl 0
    next h =>
      split
      · positivity
      · exact ih (m / 2) (Nat.div_lt_self (Nat.pos_of_ne_zero h) (by omega))

theorem coefLoop_le (p : Int) (hp : 0 ≤ p) : ∀ m : Nat, coefLoop p m ≤ p := by
  intro m
  induction m using Nat.strong_induction_on with
  | _ m ih =>
    rw [coefLoop]
    split
    · exact hp
    next h =>
      split
      next h2 => exact h2
      next h2 => exact ih (m / 2) (Nat.div_lt_self (Nat.pos_of_ne_zero h) (by omega))

theorem timestop_frame (s : GameState) :
    (timestop s).potato = s.potato ∧ (timestop s).donation = s.donation ∧
    (timestop s).needed = s.needed ∧ (timestop s).deadline = s.deadline ∧
    (timestop s).game_over = s.game_over ∧
    (timestop s).bushstuff = s.bushstuff := by
  unfold timestop
  split <;> simp

theorem perTick_frame (s : GameState) :
    (perTick s).potato = s.potato ∧ (perTick s).donation = s.donation ∧
    (perTick s).needed = s.needed ∧ (perTick s).game_over = s.game_over := by
  have ht := timestop_frame s
  unfold perTick
  dsimp only
  split <;> split <;> split <;> split <;> simp_all

theorem processEvent_frame (s : GameState) (e : Event) :
    (processEvent s e).potato = s.potato ∧
    (processEvent s e).donation = s.donation ∧
    (processEvent s e).needed = s.needed ∧
    (processEvent s e).deadline = s.deadline ∧
    (processEvent s e).bushstuff = s.bushstuff := by
  unfold processEvent
  dsimp only
  split <;> split <;> simp

theorem processEvent_game_over (s : GameState) (e : Event) :
    ((processEvent s e).game_over = true) ↔
      (s.game_over = true ∨ (s.deadline = 0 ∧ s.needed ≠ 0) ∨ e = Event.quit) := by
  unfold processEvent
  dsimp only
  split <;> split <;> simp_all

theorem foldl_processEvent_frame (events : List Event) (s : GameState) :
    ((events.foldl processEvent s).potato = s.potato ∧
     (events.foldl processEvent s).donation = s.donation ∧
     (events.foldl processEvent s).needed = s.needed ∧
     (events.foldl processEvent s).deadline = s.deadline ∧
     (events.foldl processEvent s).bushstuff = s.bushstuff) := by
  induction events generalizing s with
  | nil => simp
  | cons e es ih =>
    have hp := processEvent_frame s e
    have := ih (processEvent s e)
    simp_all [List.foldl]

theorem foldl_processEvent_game_over (events : List Event) (s : GameState) :
    ((events.foldl processEvent s).game_over = true) ↔
      (s.game_over = true ∨ Event.quit ∈ events ∨
        (events ≠ [] ∧ s.deadline = 0 ∧ s.needed ≠ 0)) := by
  induction events generalizing s with
  | nil => simp
  | cons e es ih =>
    have hp := processEvent_frame s e
    have hg := processEvent_game_over s e
    rw [List.foldl_cons, ih (processEvent s e)]
    obtain ⟨-, -, h3, h4, -⟩ := hp
    rw [h3, h4, hg]
    by_cases hq : e = Event.quit <;>
      by_cases hc : s.deadline = 0 ∧ s.needed ≠ 0 <;>
        simp_all <;> tauto

theorem foldlM_option_preserve {β : Type} (P : GameState → Prop)
    (f : GameState → β → Option GameState) :
    ∀ (zs : List β) (s s' : GameState),
      (∀ t z t', z ∈ zs → P t → f t z = some t' → P t') →
      P s → zs.foldlM f s = some s' → P s' := by
  intro zs
  induction zs with
  | nil =>
    intro s s' _ hP h
    simp only [List.foldlM_nil, Option.pure_def, Option.some.injEq] at h
    exact h ▸ hP
  | cons z zs ih =>
    intro s s' hf hP h
    rw [List.foldlM_cons] at h
    cases h1 : f s z with
    | none => rw [h1] at h; simp at h
    | some s1 =>
      rw [h1] at h
      simp only [Option.bind_eq_bind, Option.some_bind] at h
      exact ih s1 s' (fun t z' t' hz => hf t z' t' (by simp [hz]))
        (hf s z s1 (by simp) hP h1) h

theorem doForward_inv (s s' : GameState) (h : doForward s = some s')
    (hp : 0 ≤ s.potato) :
    0 ≤ s'.potato ∧ s'.donation = s.donation ∧ s'.needed = s.needed ∧
      s'.game_over = s.game_over := by
  unfold doForward at h
  split at h
  next hge =>
    cases h1 : potato_affect true s.bushstuff with
    | none => rw [h1] at h; simp at h
    | some bs =>
      rw [h1] at h
      simp only [Option.map_some', Option.some.injEq] at h
      subst h
      exact ⟨by dsimp only; omega, rfl, rfl, rfl⟩
  next =>
    simp only [Option.some.injEq] at h
    subst h
    exact ⟨hp, rfl, rfl, rfl⟩

theorem doBackward_inv (s s' : GameState) (h : doBackward s = some s')
    (hp : 0 ≤ s.potato) :
    0 ≤ s'.potato ∧ s'.donation = s.donation ∧ s'.needed = s.needed ∧
      s'.game_over = s.game_over := by
  unfold doBackward at h
  split at h
  next hge =>
    cases h1 : potato_affect false s.bushstuff with
    | none => rw [h1] at h; simp at h
    | some bs =>
      rw [h1] at h
      simp only [Option.map_some', Option.some.injEq] at h
      subst h
      exact ⟨by dsimp only; omega, rfl, rfl, rfl⟩
  next =>
    simp only [Option.some.injEq] at h
    subst h
    exact ⟨hp, rfl, rfl, rfl⟩

theorem doStop_inv (s : GameState) (hp : 0 ≤ s.potato) :
    0 ≤ (doStop s).potato ∧ (doStop s).donation = s.donation ∧
      (doStop s).needed = s.needed ∧ (doStop s).game_over = s.game_over := by
  unfold doStop
  split
  next hge => exact ⟨by dsimp only; omega, rfl, rfl, rfl⟩
  next => exact ⟨hp, rfl, rfl, rfl⟩

theorem doBush_inv (pos : Int × Int) (s s' : GameState)
    (h : doBush pos s = some s') (hp : 0 ≤ s.potato) :
    0 ≤ s'.potato ∧ s'.donation = s.donation ∧ s'.needed = s.needed ∧
      s'.game_over = s.game_over := by
  unfold doBush at h
  split at h
  · simp at h
  · split at h
    · simp at h
    · split at h
      · simp only [Option.some.injEq] at h
        subst h
        exact ⟨hp, rfl, rfl, rfl⟩
      · split at h
        · simp only [Option.some.injEq] at h
          subst h
          refine ⟨?_, rfl, rfl, rfl⟩
          dsimp only
          split <;> omega
        · simp only [Option.some.injEq] at h
          subst h
          exact ⟨hp, rfl, rfl, rfl⟩

theorem doHouse_inv (s : GameState) (hp : 0 ≤ s.potato) :
    0 ≤ (doHouse s).potato ∧ (doHouse s).needed = s.needed ∧
      (doHouse s).game_over = s.game_over := by
  unfold doHouse
  refine ⟨?_, rfl, rfl⟩
  have := coefLoop_le s.potato hp 500
  dsimp only
  omega

theorem stepForward_inv (pos : Int × Int) (z : Zone) (s s' : GameState)
    (h : stepForward pos z s = some s') (hp : 0 ≤ s.potato) :
    0 ≤ s'.potato ∧ s'.donation = s.donation ∧ s'.needed = s.needed ∧
      s'.game_over = s.game_over := by
  unfold stepForward at h
  split at h
  · exact doForward_inv s s' h hp
  · simp only [Option.some.injEq] at h
    subst h
    exact ⟨hp, rfl, rfl, rfl⟩

theorem stepBackward_inv (pos : Int × Int) (z : Zone) (s s' : GameState)
    (h : stepBackward pos z s = some s') (hp : 0 ≤ s.potato) :
    0 ≤ s'.potato ∧ s'.donation = s.donation ∧ s'.needed = s.needed ∧
      s'.game_over = s.game_over := by
  unfold stepBackward at h
  split at h
  · exact doBackward_inv s s' h hp
  · simp only [Option.some.injEq] at h
    subst h
    exact ⟨hp, rfl, rfl, rfl⟩

theorem stepStop_inv (pos : Int × Int) (z : Zone) (s : GameState)
    (hp : 0 ≤ s.potato) :
    0 ≤ (stepStop pos z s).potato ∧
      (stepStop pos z s).donation = s.donation ∧
      (stepStop pos z s).needed = s.needed ∧
      (stepStop pos z s).game_over = s.game_over := by
  unfold stepStop
  split
  · exact doStop_inv s hp
  · exact ⟨hp, rfl, rfl, rfl⟩

theorem stepBush_inv (pos : Int × Int) (z : Zone) (s s' : GameState)
    (h : stepBush pos z s = some s') (hp : 0 ≤ s.potato) :
    0 ≤ s'.potato ∧ s'.donation = s.donation ∧ s'.needed = s.needed ∧
      s'.game_over = s.game_over := by
  unfold stepBush at h
  split at h
  · exact doBush_inv pos s s' h hp
  · simp only [Option.some.injEq] at h
    subst h
    exact ⟨hp, rfl, rfl, rfl⟩

theorem stepHouse_inv (pos : Int × Int) (z : Zone) (s : GameState)
    (hp : 0 ≤ s.potato) :
    0 ≤ (stepHouse pos z s).potato ∧
      (stepHouse pos z s).needed = s.needed ∧
      (stepHouse pos z s).game_over = s.game_over ∧
      (z.name ≠ "house" → stepHouse pos z s = s) := by
  unfold stepHouse
  split
  next hc =>
    have hd := doHouse_inv s hp
    exact ⟨hd.1, hd.2.1, hd.2.2, fun hz => absurd hc.2.2 hz⟩
  next => exact ⟨hp, rfl, rfl, fun _ => rfl⟩

theorem interactStep_inv (pos : Int × Int) (z : Zone) (s s' : GameState)
    (h : interactStep pos z s = some s') (hp : 0 ≤ s.potato)
    (hz : z.name ≠ "house") :
    0 ≤ s'.potato ∧ s'.donation = s.donation ∧ s'.needed = s.needed ∧
      s'.game_over = s.game_over := by
  unfold interactStep at h
  cases h1 : stepForward pos z s with
  | none => rw [h1] at h; simp at h
  | some s1 =>
    rw [h1] at h
    simp only [Option.bind_eq_bind, Option.some_bind] at h
    have i1 := stepForward_inv pos z s s1 h1 hp
    have i2 := stepStop_inv pos z s1 i1.1
    cases h2 : stepBackward pos z (stepStop pos z s1) with
    | none => rw [h2] at h; simp at h
    | some s2 =>
      rw [h2] at h
      simp only [Option.some_bind] at h
      have i3 := stepBackward_inv pos z (stepStop pos z s1) s2 h2 i2.1
      cases h3 : stepBush pos z s2 with
      | none => rw [h3] at h; simp at h
      | some s3 =>
        rw [h3] at h
        simp only [Option.map_some', Option.some.injEq] at h
        have i4 := stepBush_inv pos z s2 s3 h3 i3.1
        have i5 := stepHouse_inv pos z s3 i4.1
        rw [i5.2.2.2 hz] at h
        subst h
        refine ⟨i4.1, ?_, ?_, ?_⟩
        · rw [i4.2.1, i3.2.1, i2.2.1, i1.2.1]
        · rw [i4.2.2.1, i3.2.2.1, i2.2.2.1, i1.2.2.1]
        · rw [i4.2.2.2, i3.2.2.2, i2.2.2.2, i1.2.2.2]

theorem interact_inv (pos : Int × Int) (zones : List Zone) (s s' : GameState)
    (h : interact pos zones s = some s') (hp : 0 ≤ s.potato)
    (hz : ∀ z ∈ zones, z.name ≠ "house") :
    0 ≤ s'.potato ∧ s'.donation = s.donation ∧ s'.needed = s.needed ∧
      s'.game_over = s.game_over := by
  refine foldlM_option_preserve
    (fun t => 0 ≤ t.potato ∧ t.donation = s.donation ∧ t.needed = s.needed ∧
      t.game_over = s.game_over)
    (fun t z => interactStep pos z t) zones s s' ?_ ⟨hp, rfl, rfl, rfl⟩ h
  intro t z t' hzm hPt hstep
  have hi := interactStep_inv pos z t t' hstep hPt.1 (hz z hzm)
  exact ⟨hi.1, hi.2.1.trans hPt.2.1, hi.2.2.1.trans hPt.2.2.1,
    hi.2.2.2.trans hPt.2.2.2⟩

theorem mkZones_no_house (items : List (String × Int × Int)) :
    ∀ z ∈ mkZones items, z.name ≠ "house" := by
  intro z hz
  unfold mkZones at hz
  simp only [List.mem_map] at hz
  obtain ⟨it, hit, rfl⟩ := hz
  have hf : it.1 ∈ features := by simpa using List.of_mem_filter hit
  intro hcon
  dsimp only at hcon
  rw [hcon] at hf
  revert hf
  decide

theorem loopIter_inv (zones : List Zone) (s s' : GameState)
    (ipos : Option (Int × Int)) (events : List Event)
    (h : loopIter zones s ipos events = some s')
    (hz : ∀ z ∈ zones, z.name ≠ "house") (hp : 0 ≤ s.potato) :
    0 ≤ s'.potato ∧ s'.donation = s.donation ∧ s'.needed = s.needed := by
  unfold loopIter at h
  have hpt := perTick_frame s
  cases ipos with
  | none =>
    simp only [Option.some.injEq] at h
    subst h
    have hev := foldl_processEvent_frame events (perTick s)
    exact ⟨hev.1 ▸ hpt.1 ▸ hp, hev.2.1.trans hpt.2.1, hev.2.2.1.trans hpt.2.2.1⟩
  | some pos =>
    dsimp only at h
    cases h1 : interact pos zones (perTick s) with
    | none => rw [h1] at h; simp at h
    | some sm =>
      rw [h1] at h
      simp only [Option.map_some', Option.some.injEq] at h
      subst h
      have hint := interact_inv pos zones (perTick s) sm h1 (hpt.1 ▸ hp) hz
      have hev := foldl_processEvent_frame events sm
      exact ⟨hev.1 ▸ hint.1,
        (hev.2.1.trans hint.2.1).trans hpt.2.1,
        (hev.2.2.1.trans hint.2.2.1).trans hpt.2.2.1⟩

theorem reach_inv (items : List (String × Int × Int)) (s : GameState)
    (h : Reach items s) :
    0 ≤ s.potato ∧ s.donation = 0 ∧ s.needed = 1000 := by
  induction h with
  | init => exact ⟨by norm_num [initState], rfl, rfl⟩
  | step s s' ipos events hr hstep ih =>
    have hl := loopIter_inv (mkZones items) s s' ipos events hstep
      (mkZones_no_house items) ih.1
    exact ⟨hl.1, hl.2.1.trans ih.2.1, hl.2.2.trans ih.2.2⟩

theorem loopIter_none_nil (zones : List Zone) (s : GameState) :
    loopIter zones s none [] = some (perTick s) := rfl

theorem reach_perTick {items : List (String × Int × Int)} {s : GameState}
    (h : Reach items s) : Reach items (perTick s) :=
  Reach.step s (perTick s) none [] h (loopIter_none_nil _ s)

theorem perTick_sAfter (d : Int) (hd : d ≠ 0) :
    perTick (sAfter d) = sAfter (d - 1) := by
  simp [perTick, sAfter, timestop, hd, potatogrow, weightnum]

theorem reach_sAfter (n : Nat) (hn : n ≤ 5474) :
    Reach itemsF (sAfter (5474 - (n : Int))) := by
  induction n with
  | zero =>
    have h0 : perTick (initState itemsF) = sAfter 5474 := by decide
    have h := reach_perTick (@Reach.init itemsF)
    rw [h0] at h
    simpa using h
  | succ n ih =>
    have hlt : n < 5474 := by omega
    have hprev := ih (by omega)
    have hd : (5474 : Int) - (n : Int) ≠ 0 := by
      have : (n : Int) < 5474 := by exact_mod_cast hlt
      omega
    have h := reach_perTick hprev
    rw [perTick_sAfter _ hd] at h
    have harith : (5474 : Int) - (n : Int) - 1 = 5474 - ((n + 1 : Nat) : Int) := by
      push_cast
      ring
    rwa [harith] at h

theorem reach_sAfter10 : Reach itemsF (sAfter 10) := by
  have h := reach_sAfter 5464 (by omega)
  norm_num at h
  exact h

theorem reach_sAfter0 : Reach itemsF (sAfter 0) := by
  have h := reach_sAfter 5474 (by omega)
  norm_num at h
  exact h

theorem reach_sNeg : Reach itemsF sNeg :=
  Reach.step (sAfter 10) sNeg (some (6, 5)) [] reach_sAfter10 (by decide)

set_option maxHeartbeats 1000000 in
theorem perTick_deadline (s : GameState) :
    (perTick s).deadline =
      if s.is_time_stopped = true ∧ s.stoppedtime ≠ 0 then s.deadline
      else if s.deadline = 0 then s.deadline else s.deadline - 1 := by
  by_cases h1 : s.is_time_stopped = true
  · by_cases h2 : s.stoppedtime = 0
    · by_cases h3 : s.deadline = 0
      · simp [perTick, timestop, h1, h2, h3]
        try (split <;> simp)
      · simp [perTick, timestop, h1, h2, h3]
        try (split <;> simp)
    · by_cases h3 : s.deadline = 0
      · simp [perTick, timestop, h1, h2, h3]
        try (split <;> simp)
      · simp [perTick, timestop, h1, h2, h3]
        try (split <;> simp)
  · by_cases h3 : s.deadline = 0
    · simp [perTick, timestop, h1, h3]
      try (split <;> simp)
    · simp [perTick, timestop, h1, h3]
      try (split <;> simp)

set_option maxHeartbeats 1000000 in
theorem perTick_stopclear (s : GameState) (h1 : s.is_time_stopped = true)
    (h2 : s.stoppedtime = 0) :
    (perTick s).is_time_stopped = false ∧ (perTick s).stoppedtime = 10 * FPS := by
  by_cases h3 : s.deadline = 0
  · simp [perTick, timestop, h1, h2, h3, FPS]
    try (split <;> simp)
  · simp [perTick, timestop, h1, h2, h3, FPS]
    try (split <;> simp)

theorem except_bind_ok {ε α β : Type} (a : α) (f : α → Except ε β) :
    (Except.ok a >>= f : Except ε β) = f a := rfl

theorem foldlM_except_ok {α β ε : Type} (f : β → α → Except ε β) :
    ∀ l : List α,
      (∀ b a, a ∈ l → ∃ b', f b a = .ok b') →
      ∀ b, ∃ b', l.foldlM f b = .ok b' := by
  intro l
  induction l with
  | nil => intro _ b; exact ⟨b, rfl⟩
  | cons a t ih =>
    intro h b
    obtain ⟨b1, hb1⟩ := h b a (by simp)
    obtain ⟨b', hb'⟩ := ih (fun b2 a2 ha2 => h b2 a2 (by simp [ha2])) b1
    refine ⟨b', ?_⟩
    rw [List.foldlM_cons, hb1]
    simpa [Bind.bind, Except.bind] using hb'

theorem scanRow_ok (lvl : Level) (y : Nat) (row : List Char)
    (h : ∀ c ∈ row, (lvl.key.lookup c).isSome) :
    ∃ l, scanRow lvl y row = .ok l := by
  unfold scanRow
  refine foldlM_except_ok _ row.enum ?_ []
  intro acc xc hxc
  have hc : xc.2 ∈ row := List.getElem?_mem (List.mem_enum_iff_getElem?.mp hxc)
  by_cases hw : is_wall lvl (xc.1 : Int) (y : Int) = true
  · exact ⟨acc, by rw [if_pos hw]⟩
  · have hs := h xc.2 hc
    cases hl : lvl.key.lookup xc.2 with
    | none => rw [hl] at hs; simp at hs
    | some attrs =>
      exact ⟨if (attrs.lookup "sprite").isSome then acc ++ [((xc.1, y), attrs)]
             else acc,
             by simp [hw, hl]⟩

theorem findBush_single (pos : Int × Int) (b : BushRec) (h : pos ∈ b.place) :
    findBush pos [b] = some 0 := by
  simp [findBush, List.filter, h, List.indexOf_cons_self]

theorem doBush_single (pos : Int × Int) (s : GameState) (b : BushRec)
    (hb : s.bushstuff = [b]) (hmem : pos ∈ b.place) :
    doBush pos s =
      if b.is_done = false ∧ b.timeleft < 0 then
        some { s with bushstuff := [{ b with timeleft := 20 * FPS }] }
      else if b.is_done = true ∧ b.timeleft = 0 then
        some { s with
          potato := s.potato + 50 + (if s.is_time_stopped = true then 50 else 0)
          bushstuff := [{ b with is_done := false, timeleft := -1 }] }
      else some s := by
  unfold doBush
  rw [hb, findBush_single pos b hmem]
  dsimp only [List.get?, List.set]

/-! ## Claim theorems -/

/-- **C3** (confirmed).  For every wall cell whose south neighbour is not
a wall, the renderer's wall-face tile is `faceSelect` of the pair
(east-is-wall, west-is-wall); `faceSelect` is injective in that pair and
its four values are fixed coordinates of tileset row 2; when the south
neighbour is a wall, a tile from the distinct row 1 of four variants is
chosen instead. -/
theorem claim_C3 (lvl : Level) (x y : Int) (hw : is_wall lvl x y = true) :
    (is_wall lvl x (y + 1) = false →
      wallFaceTile lvl x y =
        faceSelect (is_wall lvl (x + 1) y) (is_wall lvl (x - 1) y)) ∧
    (∀ e w e' w', faceSelect e w = faceSelect e' w' → e = e' ∧ w = w') ∧
    (∀ e w, (faceSelect e w).2 = 2) ∧
    (is_wall lvl x (y + 1) = true →
      wallFaceTile lvl x y ∈
        [((1 : Nat), (1 : Nat)), (0, 1), (2, 1), (3, 1)] ∧
      (wallFaceTile lvl x y).2 = 1) := by
  refine ⟨?_, by decide, by decide, ?_⟩
  · intro hs
    unfold wallFaceTile faceSelect
    rw [hs]
    cases h1 : is_wall lvl (x + 1) y <;>
      cases h2 : is_wall lvl (x - 1) y <;> simp [h1, h2]
  · intro hs
    unfold wallFaceTile
    rw [hs]
    cases h1 : is_wall lvl (x + 1) (y + 1) <;>
      cases h2 : is_wall lvl (x - 1) (y + 1) <;> simp [h1, h2]

/-- Witness for C3: the wall cell `(0, 0)` of `demoLevel`, whose south
neighbour is floor. -/
theorem claim_C3_witness :
    is_wall demoLevel 0 0 = true ∧
    ((is_wall demoLevel 0 (0 + 1) = false →
      wallFaceTile demoLevel 0 0 =
        faceSelect (is_wall demoLevel (0 + 1) 0) (is_wall demoLevel (0 - 1) 0)) ∧
     (∀ e w e' w', faceSelect e w = faceSelect e' w' → e = e' ∧ w = w') ∧
     (∀ e w, (faceSelect e w).2 = 2) ∧
     (is_wall demoLevel 0 (0 + 1) = true →
      wallFaceTile demoLevel 0 0 ∈
        [((1 : Nat), (1 : Nat)), (0, 1), (2, 1), (3, 1)] ∧
      (wallFaceTile demoLevel 0 0).2 = 1)) :=
  ⟨by decide, claim_C3 demoLevel 0 0 (by decide)⟩

/-- **C10** (confirmed).  The tile queries accept `x = -1` (and `y = -1`)
without failing and return the attributes of the last-column
(respectively last-row) cell, i.e. they agree with the query at the
opposite edge of the map. -/
theorem claim_C10 (lvl : Level) :
    (∀ (y : Nat) (row : List Char) (c : Char),
      lvl.map.get? y = some row → row.getLast? = some c →
      get_tile lvl (-1) (y : Int) = tileAttrs lvl c ∧
      get_tile lvl (-1) (y : Int) =
        get_tile lvl ((row.length : Int) - 1) (y : Int)) ∧
    (∀ (x : Nat) (lrow : List Char) (c : Char),
      lvl.map.getLast? = some lrow → lrow.get? x = some c →
      get_tile lvl (x : Int) (-1) = tileAttrs lvl c ∧
      get_tile lvl (x : Int) (-1) =
        get_tile lvl (x : Int) ((lvl.map.length : Int) - 1)) := by
  constructor
  · intro y row c hy hc
    have hrow : row ≠ [] := by
      intro hnil
      rw [hnil] at hc
      simp at hc
    have hlen : 1 ≤ row.length := List.length_pos.mpr hrow
    have hgl : row.get? (row.length - 1) = some c := by
      rw [get?_length_sub_one]
      exact hc
    have hcast : (row.length : Int) - 1 = ((row.length - 1 : Nat) : Int) := by
      omega
    constructor
    · unfold get_tile
      rw [pyGet_natCast, hy]
      dsimp only
      rw [pyGet_neg_one row hrow, hc]
    · unfold get_tile
      rw [pyGet_natCast, hy]
      dsimp only
      rw [pyGet_neg_one row hrow, hc, hcast, pyGet_natCast, hgl]
  · intro x lrow c hl hx
    have hmap : lvl.map ≠ [] := by
      intro hnil
      rw [hnil] at hl
      simp at hl
    have hlen : 1 ≤ lvl.map.length := List.length_pos.mpr hmap
    have hgl : lvl.map.get? (lvl.map.length - 1) = some lrow := by
      rw [get?_length_sub_one]
      exact hl
    have hcast : (lvl.map.length : Int) - 1 = ((lvl.map.length - 1 : Nat) : Int) := by
      omega
    constructor
    · unfold get_tile
      rw [pyGet_neg_one lvl.map hmap, hl]
      dsimp only
      rw [pyGet_natCast, hx]
    · unfold get_tile
      rw [pyGet_neg_one lvl.map hmap, hl, hcast, pyGet_natCast, hgl]

/-- Witness for C10 at `demoLevel`: querying column `-1` of row 0 gives
the attributes of the last cell of that row. -/
theorem claim_C10_witness :
    get_tile demoLevel (-1) ((0 : Nat) : Int) = tileAttrs demoLevel '#' ∧
    get_tile demoLevel (-1) ((0 : Nat) : Int) =
      get_tile demoLevel (((['#', '#'] : List Char).length : Int) - 1)
        ((0 : Nat) : Int) :=
  (claim_C10 demoLevel).1 0 ['#', '#'] '#' rfl rfl

/-- **C9** (confirmed).  In every reachable session state the stock is
non-negative: each stock subtraction in `interact` sits behind a
precondition bounding it by the current stock. -/
theorem claim_C9 (items : List (String × Int × Int)) (s : GameState)
    (h : Reach items s) : 0 ≤ s.potato :=
  (reach_inv items s h).1

/-- Witness for C9 at the initial state of the empty level. -/
theorem claim_C9_witness : 0 ≤ (initState []).potato :=
  claim_C9 [] (initState []) Reach.init

/-- **C8** (counterexample).  The countdown is initialised to
`25 * FPS = 375` but the per-tick update resets it to `150`, not to the
session-start duration, refuting the claim's "same duration" clause. -/
theorem claim_C8_counterexample :
    (initState []).stoppedtime = 25 * FPS ∧ 25 * FPS = (375 : Int) ∧
    (perTick sStopped0).is_time_stopped = false ∧
    (perTick sStopped0).stoppedtime = 150 ∧ ((150 : Int) ≠ 375) := by
  decide

/-- **C8** (amended).  In a per-tick update whose countdown sits at 0,
the flag is cleared and the countdown is reset to `10 * FPS = 150`
ticks, which differs from the `25 * FPS = 375` ticks it was initialised
with at session start. -/
theorem claim_C8_amended (s : GameState) (h1 : s.is_time_stopped = true)
    (h2 : s.stoppedtime = 0) :
    (perTick s).is_time_stopped = false ∧
    (perTick s).stoppedtime = 10 * FPS ∧
    10 * FPS ≠ (initState []).stoppedtime :=
  ⟨(perTick_stopclear s h1 h2).1, (perTick_stopclear s h1 h2).2, by decide⟩

/-- Witness for C8's amended claim at `sStopped0`. -/
theorem claim_C8_amended_witness :
    (perTick sStopped0).is_time_stopped = false ∧
    (perTick sStopped0).stoppedtime = 10 * FPS ∧
    10 * FPS ≠ (initState []).stoppedtime :=
  claim_C8_amended sStopped0 rfl rfl

/-- **C7** (code evaluation at the failing input).  A `forward`
interaction on a state with one freshly planted bush
(`timeleft = 300`, the full grow duration) pays 40 stock and rewinds
the deadline, but resets the bush to idle instead of moving its timer
to 225: `potato_affect` un-plants any bush whose shifted timer exceeds
20 ticks; and a timer in `(0, 75]` makes `potato_affect` read the
unbound local `bonus` (a crash, modelled `none`). -/
theorem claim_C7_code_eval :
    doForward sFwdBush =
      some { sFwdBush with
        potato := 0
        deadline := 4925
        bushstuff := [⟨aroundPlaces (2, 2), false, -1⟩] } ∧
    affectBush (-5) ⟨aroundPlaces (2, 2), false, 300⟩ =
      some ⟨aroundPlaces (2, 2), false, -1⟩ ∧
    affectBush (-5) ⟨aroundPlaces (2, 2), false, 60⟩ = none := by
  decide

/-- **C2** (code evaluation at the failing input).  With
`stock = 1000, donation = 0, goal = 1000`, an interaction at a crate
zone changes nothing — the only registered name is `"crate"`, while the
donation branch matches `"house"` — although the (unreachable) `house`
handler itself would transfer exactly 500, the largest ladder value. -/
theorem claim_C2_code_eval :
    interact (6, 5) (mkZones itemsC) sCrate = some sCrate ∧
    sCrate.donation = 0 ∧
    (mkZones itemsC).map Zone.name = ["crate"] ∧
    doHouse sCrate = { sCrate with potato := 500, donation := 500 } ∧
    coefLoop 1000 500 = 500 := by
  have hc : coefLoop (1000 : Int) 500 = 500 := by
    rw [coefLoop]
    norm_num
  refine ⟨by decide, by decide, by decide, ?_, hc⟩
  have h1000 : sCrate.potato = 1000 := rfl
  unfold doHouse
  dsimp only
  rw [h1000, hc]
  decide

/-- **C4** (counterexample).  A reachable state with a negative
deadline: on the `itemsF` level, 5465 quiet loop iterations take the
deadline from 5475 to 10, and one more iteration with a `forward`
interaction drives it to `-66`. -/
theorem claim_C4_counterexample : Reach itemsF sNeg ∧ sNeg.deadline < 0 :=
  ⟨reach_sNeg, by decide⟩

/-- **C4** (amended).  The per-tick update never decrements the deadline
while time is stopped with a positive countdown, otherwise decrements it
by exactly 1 when it is non-zero (resuming exactly in the tick that
observes the countdown at 0), and on its own never drives a
non-negative deadline negative — but `forward` interactions can (see
the counterexample), and the claim's "never negative in any reachable
state" clause fails. -/
theorem claim_C4_amended (s : GameState) :
    (s.is_time_stopped = true → s.stoppedtime ≠ 0 →
      (perTick s).deadline = s.deadline) ∧
    (s.is_time_stopped = false →
      (perTick s).deadline = if s.deadline = 0 then 0 else s.deadline - 1) ∧
    (s.is_time_stopped = true → s.stoppedtime = 0 →
      (perTick s).deadline = if s.deadline = 0 then 0 else s.deadline - 1) ∧
    (0 ≤ s.deadline → 0 ≤ (perTick s).deadline) := by
  have hd := perTick_deadline s
  refine ⟨?_, ?_, ?_, ?_⟩
  · intro h1 h2
    rw [hd, if_pos ⟨h1, h2⟩]
  · intro h1
    rw [hd, if_neg (by simp [h1])]
    by_cases h3 : s.deadline = 0 <;> simp [h3]
  · intro h1 h2
    rw [hd, if_neg (by simp [h2])]
    by_cases h3 : s.deadline = 0 <;> simp [h3]
  · intro h0
    rw [hd]
    split
    next => exact h0
    next =>
      split
      next => exact h0
      next h3 => omega

/-- Witness for C4's amended claim at two concrete states: the initial
state (running clock) and `sStopped1` (stopped clock mid-countdown). -/
theorem claim_C4_amended_witness :
    ((perTick (initState [])).deadline =
      if (initState []).deadline = 0 then 0 else (initState []).deadline - 1) ∧
    (0 ≤ (perTick (initState [])).deadline) ∧
    ((perTick sStopped1).deadline = sStopped1.deadline) :=
  ⟨(claim_C4_amended (initState [])).2.1 rfl,
   (claim_C4_amended (initState [])).2.2.2 (by decide),
   (claim_C4_amended sStopped1).1 rfl (by decide)⟩

/-- **C1** (counterexample).  A reachable state with
`deadline = 0` and `goal ≠ 0` whose loop iteration (with no pending
events) leaves the session running: the loss condition is only
evaluated inside the event loop, so it is not "checked once per tick";
no win check exists at all. -/
theorem claim_C1_counterexample :
    Reach itemsF (sAfter 0) ∧ (sAfter 0).deadline = 0 ∧
    (sAfter 0).needed ≠ 0 ∧ (sAfter 0).game_over = false ∧
    loopIter (mkZones itemsF) (sAfter 0) none [] = some (sAfter 0) :=
  ⟨reach_sAfter0, by decide, by decide, by decide, by decide⟩

/-- **C1** (amended).  In every reachable state the donation total is 0
and differs from the goal (the crate branch never fires), so the
session never ends in a win; the loss condition
`deadline == 0 ∧ goal ≠ 0` is evaluated once per pending event of the
iteration's event-processing phase (after the per-tick transitions),
and a `QUIT` event also ends the session — in particular a tick with no
pending events performs no loss check at all. -/
theorem claim_C1_amended (items : List (String × Int × Int)) (s : GameState)
    (hs : Reach items s) :
    s.donation = 0 ∧ s.needed = 1000 ∧ s.donation ≠ s.needed ∧
    (∀ (events : List Event) (s' : GameState),
      loopIter (mkZones items) s none events = some s' →
      (s'.game_over = true ↔
        (s.game_over = true ∨ Event.quit ∈ events ∨
          (events ≠ [] ∧ (perTick s).deadline = 0)))) := by
  obtain ⟨hp, hd, hn⟩ := reach_inv items s hs
  refine ⟨hd, hn, by rw [hd, hn]; decide, ?_⟩
  intro events s' h
  unfold loopIter at h
  simp only [Option.some.injEq] at h
  subst h
  rw [foldl_processEvent_game_over]
  have hpt := perTick_frame s
  have hneed : (perTick s).needed = 1000 := hpt.2.2.1.trans hn
  rw [hpt.2.2.2, hneed]
  simp

/-- Witness for C1's amended claim at the initial state of the
`itemsF` level. -/
theorem claim_C1_witness :
    (initState itemsF).donation = 0 ∧ (initState itemsF).needed = 1000 ∧
    (initState itemsF).donation ≠ (initState itemsF).needed ∧
    (∀ (events : List Event) (s' : GameState),
      loopIter (mkZones itemsF) (initState itemsF) none events = some s' →
      (s'.game_over = true ↔
        ((initState itemsF).game_over = true ∨ Event.quit ∈ events ∨
          (events ≠ [] ∧ (perTick (initState itemsF)).deadline = 0)))) :=
  claim_C1_amended itemsF (initState itemsF) Reach.init

/-- **C6** (counterexample).  At `stock = 500 = maxcapacity` the bush
branch's guard `potato >= 0 and maxcapacity > potato` fails, so the
interaction leaves an idle bush idle instead of planting it, refuting
the claim's unconditional three-way split. -/
theorem claim_C6_counterexample :
    interact (6, 5) (mkZones itemsB) sBush500 = some sBush500 ∧
    sBush500.bushstuff = [⟨aroundPlaces (5, 5), false, -1⟩] ∧
    sBush500.potato = maxcapacity := by
  decide

/-- **C6** (amended).  Provided `0 ≤ stock < maxcapacity`, a bush
interaction at a bush zone is the claimed three-way split: plant an
idle bush (`timeleft := 20 * FPS`), harvest a grown one
(`stock += 50 + 50·time-stopped`, reset to idle), and leave any other
bush state unchanged; outside that stock range it has no effect. -/
theorem claim_C6_amended (s : GameState) (pos : Int × Int) (z : Zone)
    (b : BushRec) (hz : z.name = "bush") (hp : pos ∈ z.places)
    (hb : s.bushstuff = [b]) (hpl : b.place = z.places)
    (h0 : 0 ≤ s.potato) (h1 : s.potato < maxcapacity) :
    (b.is_done = false → b.timeleft < 0 →
      interactStep pos z s =
        some { s with bushstuff := [{ b with timeleft := 20 * FPS }] }) ∧
    (b.is_done = true → b.timeleft = 0 →
      interactStep pos z s =
        some { s with
          potato := s.potato + 50 + (if s.is_time_stopped = true then 50 else 0)
          bushstuff := [{ b with is_done := false, timeleft := -1 }] }) ∧
    (¬(b.is_done = false ∧ b.timeleft < 0) →
      ¬(b.is_done = true ∧ b.timeleft = 0) →
      interactStep pos z s = some s) := by
  have hmem : pos ∈ b.place := hpl ▸ hp
  have hsf : stepForward pos z s = some s := by
    simp +decide [stepForward, hz]
  have hss : stepStop pos z s = s := by
    simp +decide [stepStop, hz]
  have hsb : stepBackward pos z s = some s := by
    simp +decide [stepBackward, hz]
  have hsh : ∀ t : GameState, stepHouse pos z t = t := by
    intro t
    simp +decide [stepHouse, hz]
  have hbu : stepBush pos z s = doBush pos s := by
    unfold stepBush
    rw [if_pos ⟨hp, h0, h1, hz⟩]
  have hkey : interactStep pos z s = doBush pos s := by
    unfold interactStep
    rw [hsf]
    simp only [Option.bind_eq_bind, Option.some_bind]
    rw [hss, hsb]
    simp only [Option.some_bind]
    rw [hbu]
    simp [hsh]
  rw [hkey, doBush_single pos s b hb hmem]
  refine ⟨?_, ?_, ?_⟩
  · intro hid htl
    rw [if_pos ⟨hid, htl⟩]
  · intro hgr htl
    rw [if_neg (by simp [hgr]), if_pos ⟨hgr, htl⟩]
  · intro hn1 hn2
    rw [if_neg hn1, if_neg hn2]

/-- Witness for C6's amended claim: planting the idle bush of the
`itemsB` level's initial state. -/
theorem claim_C6_witness :
    interactStep (6, 5) ⟨"bush", aroundPlaces (5, 5)⟩ (initState itemsB) =
      some { initState itemsB with
        bushstuff :=
          [{ place := aroundPlaces (5, 5), is_done := false,
             timeleft := 20 * FPS }] } :=
  (claim_C6_amended (initState itemsB) (6, 5) ⟨"bush", aroundPlaces (5, 5)⟩
    ⟨aroundPlaces (5, 5), false, -1⟩ rfl (by decide) (by decide) rfl
    (by decide) (by decide)).1 rfl (by decide)

/-- **C5** (counterexample).  A level source whose map rows have
lengths 1, 2, 1 — the second and third rows differ from the first —
loads without any error, refuting the claim that the parser fails on
ragged rows. -/
theorem claim_C5_counterexample :
    load_file raggedCfg = Except.ok raggedLevel ∧
    raggedLevel.map.map List.length = [1, 2, 1] :=
  ⟨rfl, rfl⟩

/-- **C5** (amended).  The parser fails when the required `tileset` or
`map` entries are missing (with the uncaught configparser error, not a
dedicated `MalformedLevel` type), and otherwise — provided every map
symbol has an attribute section — produces the Grid and TileAttributes
with no row-length validation whatsoever: rows of any lengths are
accepted. -/
theorem claim_C5_amended (cfg : ConfigFile) :
    (cfgGet cfg "level" "tileset" = none →
      load_file cfg = Except.error LoadErr.noTileset) ∧
    (∀ ts, cfgGet cfg "level" "tileset" = some ts →
      cfgGet cfg "level" "map" = none →
      load_file cfg = Except.error LoadErr.noMap) ∧
    (∀ ts m, cfgGet cfg "level" "tileset" = some ts →
      cfgGet cfg "level" "map" = some m →
      (∀ row ∈ splitLines m,
        ∀ c ∈ row, ((mkKey cfg).lookup c).isSome) →
      ∃ its, load_file cfg =
        Except.ok { parsedLevel cfg ts m with items := its }) := by
  refine ⟨?_, ?_, ?_⟩
  · intro hts
    unfold load_file
    rw [hts]
    rfl
  · intro ts hts hm
    unfold load_file
    rw [hts, hm]
    rfl
  · intro ts m hts hm hkeys
    have hstep : ∀ (acc : List ((Nat × Nat) × Attrs)) (yrow : Nat × List Char),
        yrow ∈ (parsedLevel cfg ts m).map.enum →
        ∃ acc', (do
            let part ← scanRow (parsedLevel cfg ts m) yrow.1 yrow.2
            pure (acc ++ part) : Except LoadErr _) = .ok acc' := by
      intro acc yrow hyr
      have hrow : yrow.2 ∈ (parsedLevel cfg ts m).map :=
        List.getElem?_mem (List.mem_enum_iff_getElem?.mp hyr)
      obtain ⟨part, hpart⟩ := scanRow_ok (parsedLevel cfg ts m) yrow.1 yrow.2
        (fun c hc => hkeys yrow.2 hrow c hc)
      exact ⟨acc ++ part, by rw [hpart]; rfl⟩
    obtain ⟨its, hits⟩ :=
      foldlM_except_ok _ (parsedLevel cfg ts m).map.enum hstep []
    refine ⟨its, ?_⟩
    unfold load_file
    rw [hts, hm]
    simp only [except_bind_ok]
    simp only [parsedLevel] at hits
    rw [hits]
    rfl

/-- Witness for C5's amended claim: `raggedCfg` has both required
entries and a fully keyed (ragged!) map, so it loads. -/
theorem claim_C5_witness :
    ∃ its, load_file raggedCfg =
      Except.ok { parsedLevel raggedCfg "tiles.png" ".\n..\n." with
                    items := its } :=
  (claim_C5_amended raggedCfg).2.2 "tiles.png" ".\n..\n." rfl rfl (by decide)

end QQ3
